import Mathlib

/-!
A shallow embedding of the schema-to-template rendering engine of
`tf-schema-parser.py` (class `TerraformSchemaParser`), together with
theorems settling the frozen claims about it.

Conventions of the embedding:

* Python exceptions are modelled with `Except String`; the payload is the
  kind of exception raised (`"IndexError"` from an out-of-range list index
  in `_parse_type`) or the `ValueError` message text.
* A Python JSON scalar is modelled by `JsonVal`; `schema.get('default')`
  being `None` is modelled by `Option JsonVal` (an explicit JSON `null`
  default is indistinguishable in the source from a missing one, since both
  make `default is not None` false).
* Python string primitives are modelled by structurally recursive functions
  over the character list of the string (`py_strip` for `str.strip()`,
  `py_endswith`/`py_startswith` for `str.endswith`/`str.startswith`,
  `py_split_nl` for `s.split('\n')`, `strRepeat` for `'s' * n`), so that
  every rendering function evaluates by kernel reduction.
* Python's `sorted(d.items(), key=lambda x: x[0])` is a stable sort by key;
  it is modelled by the stable insertion sort `sort_by_key`, which therefore
  produces the identical list.
* Literal brace characters of the produced templates are written with the
  escapes `\x7b` and `\x7d`.
-/

/-- Python `'s' * n` repetition of a string. -/
def strRepeat (s : String) (n : Nat) : String :=
  String.join (List.replicate n s)

/-- Python `str.strip()` whitespace set (the ASCII part actually exercised
by schema text). -/
def py_is_space (c : Char) : Bool :=
  c = ' ' || c = '\t' || c = '\n' || c = '\r' || c = '\x0b' || c = '\x0c'

/-- Python `s.strip()`. -/
def py_strip (s : String) : String :=
  ⟨((s.data.dropWhile py_is_space).reverse.dropWhile py_is_space).reverse⟩

/-- Python `s.endswith(suffix)`. -/
def py_endswith (s sfx : String) : Bool :=
  sfx.data.isSuffixOf s.data

/-- Python `s.startswith(pre)`. -/
def py_startswith (s pre : String) : Bool :=
  pre.data.isPrefixOf s.data

/-- Python `s[:-n]` (drop the last `n` characters). -/
def py_dropright (s : String) (n : Nat) : String :=
  ⟨s.data.take (s.data.length - n)⟩

/-- Python `s.split('\n')` on the character list. -/
def py_split_nl_chars : List Char → List (List Char)
  | [] => [[]]
  | c :: rest =>
    if c = '\n' then [] :: py_split_nl_chars rest
    else
      match py_split_nl_chars rest with
      | [] => [[c]]
      | g :: gs => (c :: g) :: gs

/-- Python `s.split('\n')`. -/
def py_split_nl (s : String) : List String :=
  (py_split_nl_chars s.data).map (fun l => ⟨l⟩)

/-- A JSON scalar value, the shape a `default` entry of the schema can take
(the source only ever feeds a default to `json.dumps` and to `str`). -/
inductive JsonVal where
  | jstr (s : String)
  | jnum (n : Int)
  | jbool (b : Bool)

/-- Lowercase `\uXXXX` escape used by `json.dumps`. -/
def json_u_escape (n : Nat) : String :=
  let s : String := ⟨Nat.toDigits 16 n⟩
  "\\u" ++ strRepeat "0" (4 - s.length) ++ s

/-- One character of Python `json.dumps` string escaping
(`ensure_ascii=True`, the default used by the source). -/
def json_escape_char (c : Char) : String :=
  if c = '"' then "\\\""
  else if c = '\\' then "\\\\"
  else if c = '\n' then "\\n"
  else if c = '\t' then "\\t"
  else if c = '\r' then "\\r"
  else if c = '\x08' then "\\b"
  else if c = '\x0c' then "\\f"
  else if c.toNat < 0x20 then json_u_escape c.toNat
  else if c.toNat < 0x7f then String.singleton c
  else if c.toNat ≤ 0xffff then json_u_escape c.toNat
  else
    let v := c.toNat - 0x10000
    json_u_escape (0xd800 + v / 0x400) ++ json_u_escape (0xdc00 + v % 0x400)

/-- Python `json.dumps` on a JSON scalar. -/
def json_dumps : JsonVal → String
  | .jstr s => "\"" ++ String.join (s.data.map json_escape_char) ++ "\""
  | .jnum n => toString n
  | .jbool b => if b then "true" else "false"

/-- Python `str`/f-string formatting of a JSON scalar (used for the
`, default: ...` part of an attribute's annotation comment). -/
def py_str : JsonVal → String
  | .jstr s => s
  | .jnum n => toString n
  | .jbool b => if b then "True" else "False"

/-- A schema-native type expression, i.e. the JSON value found under the
`type` key of an attribute: a string, an array of further type
expressions, or any other JSON value (`other` also stands for a missing
`type` key, since `schema.get('type')` then yields `None`). -/
inductive TypeExpr where
  | str (s : String)
  | arr (elems : List TypeExpr)
  | other

/-- The Type Descriptor Resolver `_parse_type`. A Python `IndexError`
(raised by `type_[0]` on an empty list, or by `type_[1]` when a
`list`/`set`/`map` tag has no element expression) is an `.error`. -/
def parse_type : TypeExpr → Except String String
  | .str s => .ok s
  | .other => .ok "unknown"
  | .arr [] => .error "IndexError"
  | .arr [.str k] =>
    if k = "list" ∨ k = "set" ∨ k = "map" then .error "IndexError"
    else if k = "object" then .ok "object(\x7b...\x7d)"
    else if k = "tuple" then .ok "tuple([...])"
    else .ok "unknown"
  | .arr (.str k :: e1 :: _) =>
    if k = "list" ∨ k = "set" ∨ k = "map" then
      match parse_type e1 with
      | .ok inner => .ok (k ++ "(" ++ inner ++ ")")
      | .error e => .error e
    else if k = "object" then .ok "object(\x7b...\x7d)"
    else if k = "tuple" then .ok "tuple([...])"
    else .ok "unknown"
  | .arr (.arr _ :: _) => .ok "unknown"
  | .arr (.other :: _) => .ok "unknown"

/-- The Placeholder Synthesizer `_get_placeholder`. The provider is the
hardcoded `azurerm`. -/
def get_placeholder (type_ : String) (attr_name : Option String)
    (default : Option JsonVal) : String :=
  match default with
  | some d => json_dumps d
  | none =>
    let byName : Option String :=
      match attr_name with
      | none => none
      | some a =>
        if a = "" then none
        else if py_endswith a "_name" then
          some ("azurerm_" ++ py_dropright a 5 ++ ".example.name")
        else if py_endswith a "_id" then
          some ("azurerm_" ++ py_dropright a 3 ++ ".example.id")
        else none
    match byName with
    | some s => s
    | none =>
      if type_ = "string" then "\"\""
      else if type_ = "bool" then "false"
      else if type_ = "number" then "0"
      else if py_startswith type_ "list" || py_startswith type_ "set" then "[]"
      else if py_startswith type_ "map" || py_startswith type_ "object" then "\x7b\x7d"
      else if py_startswith type_ "tuple" then "[]"
      else "null"

/-- An Attribute Descriptor: the fields of an attribute's schema dict that
`_format_attribute` reads, with the `.get` fallbacks of the source folded
into the field types (`false` for the flags, `none` for `default`, `""`
for a missing `description`). -/
structure AttrSchema where
  type : TypeExpr
  required : Bool
  optional : Bool
  computed : Bool
  deprecated : Bool
  sensitive : Bool
  default : Option JsonVal
  description : String

/-- The Attribute Renderer `_format_attribute`. It returns the list of
entries the source appends to its `lines` accumulator; in the
description case the first entry holds embedded newlines, exactly as the
source's `'\n'.join(desc_lines)` does. -/
def format_attribute (name : String) (schema : AttrSchema)
    (with_descriptions : Bool) (indent_level : Nat) (required_only : Bool) :
    Except String (List String) :=
  if required_only && !schema.required then .ok []
  else
    let indent := strRepeat "  " indent_level
    match parse_type schema.type with
    | .error e => .error e
    | .ok type_ =>
      if schema.deprecated then .ok []
      else
        let status :=
          if schema.required then "required"
          else if schema.optional then "optional" else "computed"
        let comment0 := "# " ++ status ++ ", type: " ++ type_
        let comment1 :=
          if schema.sensitive then comment0 ++ ", sensitive" else comment0
        let comment2 :=
          match schema.default with
          | some d => comment1 ++ ", default: " ++ py_str d
          | none => comment1
        let description :=
          if with_descriptions then py_strip schema.description else ""
        let placeholder := get_placeholder type_ (some name) schema.default
        let line := indent ++ name ++ " = " ++ placeholder
        if description ≠ "" then
          let desc_lines :=
            ((py_split_nl description).filter (fun l => py_strip l != "")).map
              (fun l => indent ++ "# " ++ l)
          .ok [String.intercalate "\n" (desc_lines ++ [indent ++ comment2]), line]
        else
          .ok [line ++ "  " ++ comment2]

/-- The `for attr_name, attr_schema in attributes: lines.extend(...)` loop
over an already-sorted attribute list; a raised exception aborts the
whole loop, as in Python. -/
def format_attr_list : List (String × AttrSchema) → Bool → Nat → Bool →
    Except String (List String)
  | [], _, _, _ => .ok []
  | (n, s) :: rest, wd, il, ro =>
    match format_attribute n s wd il ro with
    | .error e => .error e
    | .ok ls =>
      match format_attr_list rest wd il ro with
      | .error e => .error e
      | .ok more => .ok (ls ++ more)

/-- A Block-Type Descriptor's scalar fields (`nesting_mode`, `min_items`,
`max_items`, `description`), with the `.get` fallbacks of the source folded
in (`"single"`, `0`, `none`, `""`). The nested block itself is carried
separately so that `Block` is a plain nested inductive; `schema.get('block',
{})` makes a missing nested block an empty `Block`. -/
structure BTMeta where
  nesting_mode : String
  min_items : Nat
  max_items : Option Nat
  description : String

/-- A Block of the schema tree: its attribute dict and its block-type dict,
each as an association list in the dict's insertion order. -/
inductive Block where
  | mk (attributes : List (String × AttrSchema))
       (block_types : List (String × BTMeta × Block))

/-- Attribute dict of a block. -/
def Block.attributes : Block → List (String × AttrSchema)
  | .mk a _ => a

/-- Block-type dict of a block. -/
def Block.block_types : Block → List (String × BTMeta × Block)
  | .mk _ b => b

/-- Python `<=` on strings, lexicographic by code point, on character
lists. -/
def py_chars_le : List Char → List Char → Bool
  | [], _ => true
  | _ :: _, [] => false
  | a :: as, b :: bs =>
    if a.toNat < b.toNat then true
    else if b.toNat < a.toNat then false
    else py_chars_le as bs

/-- Python `a <= b` on strings. -/
def py_str_le (a b : String) : Bool :=
  py_chars_le a.data b.data

/-- Python `a < b` on strings, lexicographic by code point. -/
def py_chars_lt : List Char → List Char → Bool
  | [], [] => false
  | [], _ :: _ => true
  | _ :: _, [] => false
  | a :: as, b :: bs =>
    if a.toNat < b.toNat then true
    else if b.toNat < a.toNat then false
    else py_chars_lt as bs

/-- Python `a < b` on strings. -/
def py_str_lt (a b : String) : Bool :=
  py_chars_lt a.data b.data

/-- Insert an item into a key-sorted list, before the first entry whose key
is not smaller — the insertion step of a stable insertion sort. -/
def insert_by_key {α : Type} (x : String × α) :
    List (String × α) → List (String × α)
  | [] => [x]
  | y :: ys =>
    if py_str_le x.1 y.1 then x :: y :: ys else y :: insert_by_key x ys

/-- Python `sorted(d.items(), key=lambda x: x[0])`: a stable sort on the
key. Python's sort is stable, and a stable sort's output is uniquely
determined by the comparator and the input order, so this insertion sort
returns the identical list. -/
def sort_by_key {α : Type} : List (String × α) → List (String × α)
  | [] => []
  | x :: xs => insert_by_key x (sort_by_key xs)

/-- Lines 140-148 of the source: the nesting-info comment of
`_format_block_type`, preceded by description comment lines when a
description is present (note the doubled `# #` of the bare branch, which
the source produces because `comment` already starts with `# `). -/
def block_type_intro (meta : BTMeta) (with_descriptions : Bool)
    (indent_level : Nat) : List String :=
  let indent := strRepeat "  " indent_level
  let comment0 := "# nesting: " ++ meta.nesting_mode ++ ", min: " ++ toString meta.min_items
  let comment :=
    match meta.max_items with
    | some m => comment0 ++ ", max: " ++ toString m
    | none => comment0
  let description := if with_descriptions then py_strip meta.description else ""
  if description ≠ "" then
    ((py_split_nl description).filter (fun l => py_strip l != "")).map
      (fun l => indent ++ "# " ++ l) ++ [indent ++ comment]
  else
    [indent ++ "# " ++ comment]

/-- Lines 158-161 of the source: the repeatability comment of the
`list`/`set` branch. Note that it appends `max` under Python truthiness
(`if max_items:`), so a present `max_items` of `0` is not shown here. -/
def repeat_comment (meta : BTMeta) (indent_level : Nat) : String :=
  let indent := strRepeat "  " indent_level
  let rc := indent ++ "# Repeat this block as needed (min: " ++ toString meta.min_items
  let rc :=
    match meta.max_items with
    | some m => if m ≠ 0 then rc ++ ", max: " ++ toString m else rc
    | none => rc
  rc ++ ")"

/-- Sequential combination of already-rendered members: the
`for ...: lines.extend(...)` loop over rendered results, aborting at the
first raised exception exactly as Python's loop does. -/
def combine_rendered : List (String × Except String (List String)) →
    Except String (List String)
  | [] => .ok []
  | (_, .error e) :: _ => .error e
  | (_, .ok ls) :: rest =>
    match combine_rendered rest with
    | .error e => .error e
    | .ok more => .ok (ls ++ more)

/-- The shared body shape of every rendering branch of the source: sorted
attributes rendered first, then the sorted block-type renderings. -/
def block_body (attrs : List (String × AttrSchema))
    (rendered_bts : List (String × Except String (List String)))
    (with_descriptions : Bool) (indent_level : Nat) (required_only : Bool) :
    Except String (List String) :=
  match format_attr_list (sort_by_key attrs) with_descriptions indent_level required_only with
  | .error e => .error e
  | .ok als =>
    match combine_rendered (sort_by_key rendered_bts) with
    | .error e => .error e
    | .ok bls => .ok (als ++ bls)

mutual

/-- The Block Renderer `_format_block_type`, dispatching on
`nesting_mode`; an unrecognized mode falls through every branch and
returns only the intro comment lines.

The source sorts the sub-dicts and renders each member in sorted order;
here `render_bts` renders each block-type member in dict order and
`block_body` sorts the name-keyed results. Because the sort compares
names only, both sorts are stable, and a member's rendering depends only
on that member, the combined sequence — and hence the resulting value,
including which exception escapes first — is identical. -/
def format_block_type (name : String) (meta : BTMeta) (blk : Block)
    (with_descriptions : Bool) (indent_level : Nat) (required_only : Bool) :
    Except String (List String) :=
  if required_only && meta.min_items == 0 then .ok []
  else
    match blk with
    | .mk attrs bts =>
      let indent := strRepeat "  " indent_level
      let intro := block_type_intro meta with_descriptions indent_level
      if meta.nesting_mode = "single" then
        match block_body attrs (render_bts bts with_descriptions (indent_level + 1) required_only) with_descriptions (indent_level + 1) required_only with
        | .error e => .error e
        | .ok body =>
          .ok (intro ++ [indent ++ name ++ " \x7b"] ++ body ++ [indent ++ "\x7d"])
      else if meta.nesting_mode = "list" ∨ meta.nesting_mode = "set" then
        let rep := repeat_comment meta indent_level
        if 0 < meta.min_items then
          match block_body attrs (render_bts bts with_descriptions (indent_level + 1) required_only) with_descriptions (indent_level + 1) required_only with
          | .error e => .error e
          | .ok body =>
            .ok (intro ++ [rep] ++
              List.flatten (List.replicate meta.min_items
                ((indent ++ name ++ " \x7b") :: body ++ [indent ++ "\x7d"])))
        else
          .ok (intro ++ [rep,
            indent ++ name ++ " \x7b  # optional, uncomment and fill if needed",
            indent ++ "  # ...",
            indent ++ "\x7d"])
      else if meta.nesting_mode = "map" then
        match block_body attrs (render_bts bts with_descriptions (indent_level + 2) required_only) with_descriptions (indent_level + 2) required_only with
        | .error e => .error e
        | .ok body =>
          .ok (intro ++
            [indent ++ name ++ " = \x7b  # key = value syntax, repeat as needed",
             indent ++ "  example_key \x7b"] ++ body ++
            [indent ++ "  \x7d", indent ++ "\x7d"])
      else
        .ok intro

/-- Renders every block-type member of a dict, in dict order, keyed by its
name (the per-member step of the sorted `for bt_name, bt_schema in
block_types` loop; see `format_block_type` for why sorting the keyed
results afterwards is the identical computation). -/
def render_bts : List (String × BTMeta × Block) → Bool → Nat → Bool →
    List (String × Except String (List String))
  | [], _, _, _ => []
  | (n, m, b) :: rest, wd, il, ro =>
    (n, format_block_type n m b wd il ro) :: render_bts rest wd il ro

end

/-- Renders a whole block at the given indentation level: sorted
attributes first, then sorted block-types (`indent_level + 1` inside
`generate_hcl_template` and the `single`/`list`/`set` branches of
`_format_block_type`, `indent_level + 2` for `map`). -/
def render_block_body (blk : Block) (with_descriptions : Bool)
    (indent_level : Nat) (required_only : Bool) : Except String (List String) :=
  match blk with
  | .mk attrs bts =>
    block_body attrs (render_bts bts with_descriptions indent_level required_only)
      with_descriptions indent_level required_only

/-- The loaded schema state of the `TerraformSchemaParser` class: the
`resources` and `data_sources` dicts. Each entry is modelled by the value
of `entry.get('block', {})` together with its Python truthiness: `none`
when the `block` is missing or an empty (falsy) dict, `some blk` when it
is nonempty. The two cases behave identically everywhere the source reads
an entry, since the only consumer checks `if not block` immediately. -/
structure TerraformSchemaParser where
  resources : List (String × Option Block)
  data_sources : List (String × Option Block)

/-- Lines 51-56 of the source, `get_schema_block`: the resource category is
consulted first, and the data-source category only when the name is not a
resource key at all. -/
def get_schema_block (p : TerraformSchemaParser) (name : String) : Option Block :=
  match p.resources.lookup name with
  | some b => b
  | none =>
    match p.data_sources.lookup name with
    | some b => b
    | none => none

/-- The `lines` list `generate_hcl_template` accumulates before joining:
header, sorted rendered attributes, sorted rendered block-types, and
`'}' * (indent_level + 1)`. `.error` is a raised exception (`ValueError`
with the given message, or an `IndexError` propagated from `_parse_type`). -/
def generate_hcl_template_lines (p : TerraformSchemaParser) (name : String)
    (with_descriptions : Bool) (required_only : Bool) (indent_level : Nat) :
    Except String (List String) :=
  match get_schema_block p name with
  | none => .error ("No schema found for " ++ name)
  | some block =>
    let is_resource := (p.resources.lookup name).isSome
    let block_type := if is_resource then "resource" else "data"
    let header := block_type ++ " \"" ++ name ++ "\" \"example\" \x7b"
    match render_block_body block with_descriptions (indent_level + 1) required_only with
    | .error e => .error e
    | .ok body => .ok (header :: body ++ [strRepeat "\x7d" (indent_level + 1)])

/-- The Template Assembler `generate_hcl_template`: the joined template
string, or the raised exception. -/
def generate_hcl_template (p : TerraformSchemaParser) (name : String)
    (with_descriptions : Bool) (required_only : Bool) (indent_level : Nat) :
    Except String String :=
  match generate_hcl_template_lines p name with_descriptions required_only indent_level with
  | .error e => .error e
  | .ok lines => .ok (String.intercalate "\n" lines)

/-- The root block of the `example_widget` scenario entry: one required
string attribute `display_name`, no default, no description. -/
def example_widget_block : Block :=
  Block.mk [("display_name", AttrSchema.mk (.str "string") true false false false false none "")] []

/-- A loaded schema holding only the `example_widget` resource. -/
def example_widget_schema : TerraformSchemaParser :=
  ⟨[("example_widget", some example_widget_block)], []⟩

/-- Python's `sub in s` substring test, on character lists. -/
def py_in_chars (sub : List Char) : List Char → Bool
  | [] => sub.isEmpty
  | c :: rest => sub.isPrefixOf (c :: rest) || py_in_chars sub rest

/-- Python's `sub in s` substring test. -/
def py_in (sub s : String) : Bool :=
  py_in_chars sub.data s.data

/-- Whether a raised `IndexError` can escape `_parse_type` on this type
expression; `false` exactly on the malformed shapes (an empty array, or a
`list`/`set`/`map` tag without an element expression, at any depth that
the resolver actually visits). -/
def TypeExpr.wf : TypeExpr → Bool
  | .str _ => true
  | .other => true
  | .arr [] => false
  | .arr [.str k] =>
    if k = "list" ∨ k = "set" ∨ k = "map" then false else true
  | .arr (.str k :: e1 :: _) =>
    if k = "list" ∨ k = "set" ∨ k = "map" then TypeExpr.wf e1 else true
  | .arr (.arr _ :: _) => true
  | .arr (.other :: _) => true

mutual

/-- Whether every attribute type expression in a block's subtree (at the
positions the renderer visits) is well-formed for `_parse_type`. -/
def Block.types_ok : Block → Bool
  | .mk attrs bts =>
    attrs.all (fun a => a.2.type.wf) && bts_types_ok bts

/-- `Block.types_ok` over a block-type dict. -/
def bts_types_ok : List (String × BTMeta × Block) → Bool
  | [] => true
  | (_, _, b) :: rest => Block.types_ok b && bts_types_ok rest

end

/-- A resource entry whose `block` value is a falsy dict (missing or `{}`),
so that `generate_hcl_template`'s `if not block` check fires although the
name is present in the resource category. -/
def empty_block_schema : TerraformSchemaParser :=
  ⟨[("widget", none)], []⟩

/-- The resource-category block of a name that also exists as a data
source. -/
def dup_block_res : Block :=
  Block.mk [("kind", AttrSchema.mk (.str "string") true false false false false none "")] []

/-- A loaded schema in which the name `thing` exists in both categories
with different blocks. -/
def dup_schema : TerraformSchemaParser :=
  ⟨[("thing", some dup_block_res)], [("thing", some (Block.mk [] []))]⟩

/-- The `network_rule` scenario block-type: nesting `set`, `min_items 0`,
`max_items 5`. -/
def network_rule_meta : BTMeta :=
  ⟨"set", 0, some 5, ""⟩

/-- A `list` block-type with `min_items 2`. -/
def two_rule_meta : BTMeta :=
  ⟨"list", 2, none, ""⟩

/-- A block-type whose `nesting_mode` is none of the four dispatched
modes. -/
def group_meta : BTMeta :=
  ⟨"group", 0, none, ""⟩

/-- Sub-attributes used by the block-type witnesses: one required
`number` attribute `port`. -/
def rule_attrs : List (String × AttrSchema) :=
  [("port", AttrSchema.mk (.str "number") true false false false false none "")]

/-- Relates a rendered block-type member under `required_only=true` to the
same member under `required_only=false`: same name, and every line of a
successful restricted rendering occurs in a successful full rendering. -/
def ro_sub_rel (a b : String × Except String (List String)) : Prop :=
  a.1 = b.1 ∧ ∀ c1 c2, a.2 = .ok c1 → b.2 = .ok c2 → ∀ x ∈ c1, x ∈ c2

/-- An optional (non-required) string attribute. -/
def optional_attr : AttrSchema :=
  AttrSchema.mk (.str "string") false true false false false none ""

/-- A deprecated required attribute. -/
def deprecated_attr : AttrSchema :=
  AttrSchema.mk (.str "string") true false false true false none ""

/-! Helper lemmas about the Type Descriptor Resolver. -/

/-- Every exception `_parse_type` raises is an `IndexError`. -/
theorem parse_type_error : ∀ (t : TypeExpr) (e : String),
    parse_type t = .error e → e = "IndexError"
  | .str _, e, h => by simp [parse_type] at h
  | .other, e, h => by simp [parse_type] at h
  | .arr [], e, h => by
    simp only [parse_type, Except.error.injEq] at h
    exact h.symm
  | .arr [.str k], e, h => by
    simp only [parse_type] at h
    split at h
    · injection h with h
      exact h.symm
    · split at h
      · simp at h
      · split at h <;> simp at h
  | .arr (.str k :: e1 :: r), e, h => by
    simp only [parse_type] at h
    split at h
    · split at h
      · simp at h
      · rename_i e' heq
        simp only [Except.error.injEq] at h
        exact h ▸ parse_type_error e1 e' heq
    · split at h
      · simp at h
      · split at h <;> simp at h
  | .arr (.arr _ :: _), e, h => by simp [parse_type] at h
  | .arr (.other :: _), e, h => by simp [parse_type] at h

/-- On well-formed type expressions `_parse_type` returns a signature. -/
theorem parse_type_ok_of_wf : ∀ t : TypeExpr, t.wf = true →
    ∃ s, parse_type t = .ok s
  | .str s, _ => ⟨s, rfl⟩
  | .other, _ => ⟨"unknown", rfl⟩
  | .arr [], h => by simp [TypeExpr.wf] at h
  | .arr [.str k], h => by
    simp only [TypeExpr.wf] at h
    simp only [parse_type]
    split
    · rename_i hk
      rw [if_pos hk] at h
      simp at h
    · split
      · exact ⟨_, rfl⟩
      · split
        · exact ⟨_, rfl⟩
        · exact ⟨_, rfl⟩
  | .arr (.str k :: e1 :: r), h => by
    simp only [TypeExpr.wf] at h
    simp only [parse_type]
    split
    · rename_i hk
      rw [if_pos hk] at h
      obtain ⟨s, hs⟩ := parse_type_ok_of_wf e1 h
      rw [hs]
      exact ⟨_, rfl⟩
    · split
      · exact ⟨_, rfl⟩
      · split
        · exact ⟨_, rfl⟩
        · exact ⟨_, rfl⟩
  | .arr (.arr _ :: _), _ => ⟨"unknown", rfl⟩
  | .arr (.other :: _), _ => ⟨"unknown", rfl⟩

/-- On ill-formed type expressions `_parse_type` raises `IndexError`. -/
theorem parse_type_err_of_not_wf : ∀ t : TypeExpr, t.wf = false →
    parse_type t = .error "IndexError"
  | .arr [], _ => rfl
  | .str _, h => by simp [TypeExpr.wf] at h
  | .other, h => by simp [TypeExpr.wf] at h
  | .arr [.str k], h => by
    simp only [TypeExpr.wf] at h
    simp only [parse_type]
    split
    · rfl
    · rename_i hk
      rw [if_neg hk] at h
      simp at h
  | .arr (.str k :: e1 :: r), h => by
    simp only [TypeExpr.wf] at h
    simp only [parse_type]
    split
    · rename_i hk
      rw [if_pos hk] at h
      rw [parse_type_err_of_not_wf e1 h]
    · rename_i hk
      rw [if_neg hk] at h
      simp at h
  | .arr (.arr _ :: _), h => by simp [TypeExpr.wf] at h
  | .arr (.other :: _), h => by simp [TypeExpr.wf] at h

/-! Claim theorems. -/

/-- C5, amended: the Type Descriptor Resolver returns a canonical
signature string exactly on well-formed type expressions (any string, any
non-array JSON value, and arrays whose head exists and whose
`list`/`set`/`map` element expression is present and itself well-formed,
with unrecognized shapes resolving to `unknown`); on the malformed arrays
it raises `IndexError` instead of being total. -/
theorem parse_type_total_on_wf :
    (∀ t : TypeExpr, t.wf = true → ∃ s, parse_type t = .ok s) ∧
    (∀ t : TypeExpr, t.wf = false → parse_type t = .error "IndexError") :=
  ⟨parse_type_ok_of_wf, parse_type_err_of_not_wf⟩

/-- Witness for `parse_type_total_on_wf` at concrete inputs. -/
theorem parse_type_total_on_wf_witness :
    (∃ s, parse_type (.arr [.str "list", .str "string"]) = .ok s) ∧
    parse_type (.arr [.str "list"]) = .error "IndexError" :=
  ⟨parse_type_total_on_wf.1 (.arr [.str "list", .str "string"]) rfl,
   parse_type_total_on_wf.2 (.arr [.str "list"]) rfl⟩

/-- C5, counterexample: on the malformed type expression `[]` the resolver
raises an `IndexError` rather than returning a signature string, so it is
not total over all inputs. -/
theorem parse_type_total_counterexample :
    parse_type (.arr []) = .error "IndexError" := rfl

/-- C4: placeholder synthesis priority — a declared default is always
emitted as its `json.dumps` literal, overriding everything else; with no
default, a (nonempty) attribute name ending in `_name` synthesizes the
`.example.name` cross-reference and a name ending in `_id` the
`.example.id` cross-reference, in both cases ignoring the type signature
entirely. -/
theorem placeholder_priority :
    (∀ (ty : String) (a : Option String) (d : JsonVal),
      get_placeholder ty a (some d) = json_dumps d) ∧
    (∀ (ty a : String), a ≠ "" → py_endswith a "_name" = true →
      get_placeholder ty (some a) none =
        "azurerm_" ++ py_dropright a 5 ++ ".example.name") ∧
    (∀ (ty a : String), a ≠ "" → py_endswith a "_name" = false →
      py_endswith a "_id" = true →
      get_placeholder ty (some a) none =
        "azurerm_" ++ py_dropright a 3 ++ ".example.id") := by
  refine ⟨fun ty a d => rfl, fun ty a h1 h2 => ?_, fun ty a h1 h2 h3 => ?_⟩
  · simp only [get_placeholder, if_neg h1, h2, if_true]
  · simp only [get_placeholder, if_neg h1, h2, h3, Bool.false_eq_true, if_false,
      if_true]

/-- Witness for `placeholder_priority`: a defaulted `_id` attribute takes
the default literal, and the spec's `parent_id` scenario produces the
cross-reference. -/
theorem placeholder_priority_witness :
    get_placeholder "string" (some "server_id") (some (.jstr "fixed")) = "\"fixed\"" ∧
    get_placeholder "string" (some "parent_id") none = "azurerm_parent.example.id" :=
  ⟨placeholder_priority.1 "string" (some "server_id") (.jstr "fixed"),
   placeholder_priority.2.2 "string" "parent_id" (by decide) (by decide) (by decide)⟩

/-- C7: a deprecated attribute contributes no lines — whatever the flags,
the Attribute Renderer returns the empty contribution, or propagates the
`IndexError` of a malformed type expression (in which case no template is
produced at all). -/
theorem deprecated_suppressed (name : String) (schema : AttrSchema)
    (wd : Bool) (il : Nat) (ro : Bool) (h : schema.deprecated = true) :
    format_attribute name schema wd il ro = .ok [] ∨
    format_attribute name schema wd il ro = .error "IndexError" := by
  unfold format_attribute
  split
  · exact Or.inl rfl
  · cases hp : parse_type schema.type with
    | error e =>
      simp only [hp]
      exact Or.inr (by rw [parse_type_error _ _ hp])
    | ok ty =>
      simp only [hp, h]
      exact Or.inl (by simp)

/-- Witness for `deprecated_suppressed`. -/
theorem deprecated_suppressed_witness :
    format_attribute "old_field" deprecated_attr true 1 false = .ok [] ∨
    format_attribute "old_field" deprecated_attr true 1 false = .error "IndexError" :=
  deprecated_suppressed "old_field" deprecated_attr true 1 false rfl

/-- C10: a block-type whose nesting mode is none of `single`, `list`,
`set`, `map` renders only its leading description/nesting-info comment
lines — no header, body or closing brace — and raises nothing (stated
away from the `required_only` skip, which would suppress the block
entirely). -/
theorem unknown_nesting_intro_only (name : String) (meta : BTMeta) (blk : Block)
    (wd : Bool) (il : Nat) (ro : Bool)
    (h1 : meta.nesting_mode ≠ "single") (h2 : meta.nesting_mode ≠ "list")
    (h3 : meta.nesting_mode ≠ "set") (h4 : meta.nesting_mode ≠ "map")
    (h5 : ro = false ∨ 0 < meta.min_items) :
    format_block_type name meta blk wd il ro = .ok (block_type_intro meta wd il) := by
  have hg : (ro && meta.min_items == 0) = false := by
    rcases h5 with h | h
    · simp [h]
    · simp [Nat.pos_iff_ne_zero.mp h]
  cases blk with
  | mk attrs bts =>
    unfold format_block_type
    rw [hg]
    simp only [Bool.false_eq_true, if_false, if_neg h1,
      if_neg (fun hc => Or.elim hc h2 h3), if_neg h4]

/-- Witness for `unknown_nesting_intro_only` (note the `# #` the source
produces for a description-less block-type). -/
theorem unknown_nesting_intro_only_witness :
    format_block_type "grp" group_meta (Block.mk [] []) true 1 false =
      .ok ["  # # nesting: group, min: 0"] :=
  unknown_nesting_intro_only "grp" group_meta (Block.mk [] []) true 1 false
    (by decide) (by decide) (by decide) (by decide) (Or.inl rfl)

/-- C1, counterexample: for the `example_widget` scenario the rendered
template does not contain `display_name = ""` anywhere — because
`display_name` ends in `_name`, the placeholder synthesizer's name-suffix
rule fires and emits the cross-reference instead. -/
theorem widget_scenario_counterexample :
    generate_hcl_template example_widget_schema "example_widget" true false 0 =
      .ok "resource \"example_widget\" \"example\" \x7b\n  display_name = azurerm_display.example.name  # required, type: string\n\x7d" ∧
    py_in "display_name = \"\"" "resource \"example_widget\" \"example\" \x7b\n  display_name = azurerm_display.example.name  # required, type: string\n\x7d" = false :=
  ⟨rfl, rfl⟩

/-- C1, amended: the rendered template begins with the line
`resource "example_widget" "example" {` and contains a line assigning
`display_name = azurerm_display.example.name`, annotated as required with
type string (the `_name` suffix heuristic overrides the empty-string
placeholder the scenario expected). -/
theorem widget_scenario_amended :
    ∃ t, generate_hcl_template example_widget_schema "example_widget" true false 0 = .ok t ∧
      (py_split_nl t).head? = some "resource \"example_widget\" \"example\" \x7b" ∧
      (py_split_nl t).contains
        "  display_name = azurerm_display.example.name  # required, type: string" = true :=
  ⟨_, rfl, rfl, rfl⟩

/-- The accumulator of `String.intercalate.go` is a prefix of its result. -/
theorem intercalate_go_prefix (s : String) : ∀ (l : List String) (acc : String),
    ∃ r, String.intercalate.go acc s l = acc ++ r
  | [], acc => ⟨"", by simp [String.intercalate.go]⟩
  | a :: as, acc => by
    obtain ⟨r, hr⟩ := intercalate_go_prefix s as (acc ++ s ++ a)
    refine ⟨s ++ a ++ r, ?_⟩
    rw [String.intercalate.go, hr]
    simp [String.append_assoc]

/-- Joining lines preserves a prefix of the first line. -/
theorem intercalate_startswith (sep a : String) (l : List String) (pre : String)
    (h : py_startswith a pre = true) :
    py_startswith (String.intercalate sep (a :: l)) pre = true := by
  show py_startswith (String.intercalate.go a sep l) pre = true
  obtain ⟨r, hr⟩ := intercalate_go_prefix sep l a
  rw [hr]
  unfold py_startswith at h ⊢
  rw [List.isPrefixOf_iff_prefix] at h ⊢
  calc pre.data <+: a.data := h
    _ <+: (a ++ r).data := by rw [String.data_append]; exact List.prefix_append _ _

/-- A prefix of a string is a prefix of any extension of it. -/
theorem py_startswith_append_of (a x pre : String)
    (h : py_startswith a pre = true) : py_startswith (a ++ x) pre = true := by
  unfold py_startswith at h ⊢
  rw [List.isPrefixOf_iff_prefix] at h ⊢
  rw [String.data_append]
  exact h.trans (List.prefix_append _ _)

/-- C9: a name present in the resource category resolves as a resource —
`get_schema_block` returns the resource entry's block without consulting
the data-source category, and any template the entry point produces for
it begins with the `resource` keyword. -/
theorem resource_precedence (p : TerraformSchemaParser) (name : String)
    (wd ro : Bool) (il : Nat) :
    (∀ rb, p.resources.lookup name = some rb → get_schema_block p name = rb) ∧
    ((p.resources.lookup name).isSome = true →
      ∀ t, generate_hcl_template p name wd ro il = .ok t →
        py_startswith t "resource \"" = true) := by
  constructor
  · intro rb h
    unfold get_schema_block
    rw [h]
  · intro hres t ht
    unfold generate_hcl_template generate_hcl_template_lines at ht
    cases hb : get_schema_block p name with
    | none => rw [hb] at ht; simp at ht
    | some blk =>
      rw [hb] at ht
      simp only [hres, if_true] at ht
      cases hr : render_block_body blk wd (il + 1) ro with
      | error e => rw [hr] at ht; simp at ht
      | ok body =>
        rw [hr] at ht
        simp only [Except.ok.injEq] at ht
        subst ht
        apply intercalate_startswith
        apply py_startswith_append_of
        apply py_startswith_append_of
        rfl

/-- Witness for `resource_precedence` on a schema where the name `thing`
exists in both categories: the resource block wins and the header keyword
is `resource`. -/
theorem resource_precedence_witness :
    get_schema_block dup_schema "thing" = some dup_block_res ∧
    py_startswith "resource \"thing\" \"example\" \x7b\n  kind = \"\"  # required, type: string\n\x7d" "resource \"" = true :=
  ⟨(resource_precedence dup_schema "thing" true false 0).1 (some dup_block_res) rfl,
   (resource_precedence dup_schema "thing" true false 0).2 rfl
     "resource \"thing\" \"example\" \x7b\n  kind = \"\"  # required, type: string\n\x7d" rfl⟩

/-- C6: a `list` or `set` block-type renders, after its comment lines and
the repeatability comment, exactly `min_items` fully-expanded instances
when `min_items > 0` (each a header, the recursively rendered body, and a
closing brace), and exactly one placeholder instance (header line,
ellipsis line, closing brace) and no real instance when `min_items = 0`
(stated away from the `required_only` skip, which would suppress the
block entirely). -/
theorem list_set_min_items (name : String) (meta : BTMeta)
    (attrs : List (String × AttrSchema)) (bts : List (String × BTMeta × Block))
    (wd : Bool) (il : Nat) (ro : Bool)
    (hmode : meta.nesting_mode = "list" ∨ meta.nesting_mode = "set") :
    (0 < meta.min_items →
      format_block_type name meta (Block.mk attrs bts) wd il ro =
        match render_block_body (Block.mk attrs bts) wd (il + 1) ro with
        | .error e => .error e
        | .ok body =>
          .ok (block_type_intro meta wd il ++ [repeat_comment meta il] ++
            List.flatten (List.replicate meta.min_items
              ((strRepeat "  " il ++ name ++ " \x7b") :: body ++
                [strRepeat "  " il ++ "\x7d"])))) ∧
    (meta.min_items = 0 → ro = false →
      format_block_type name meta (Block.mk attrs bts) wd il ro =
        .ok (block_type_intro meta wd il ++ [repeat_comment meta il,
          strRepeat "  " il ++ name ++ " \x7b  # optional, uncomment and fill if needed",
          strRepeat "  " il ++ "  # ...",
          strRepeat "  " il ++ "\x7d"])) := by
  have hns : ¬ meta.nesting_mode = "single" := by
    rcases hmode with h | h <;> simp [h]
  constructor
  · intro hmin
    have hg : (ro && (meta.min_items == 0)) = false := by
      simp [Nat.pos_iff_ne_zero.mp hmin]
    unfold format_block_type
    rw [hg]
    simp only [Bool.false_eq_true, if_false]
    rw [if_neg hns, if_pos hmode, if_pos hmin]
    rfl
  · intro hmin0 hro
    have hg : (ro && (meta.min_items == 0)) = false := by
      simp [hro]
    unfold format_block_type
    rw [hg]
    simp only [Bool.false_eq_true, if_false]
    rw [if_neg hns, if_pos hmode, if_neg (by rw [hmin0]; exact Nat.lt_irrefl 0)]

/-- Witness for `list_set_min_items`: the `network_rule` scenario
(`set`, `min 0`, `max 5`) renders one placeholder instance, and a `list`
block-type with `min_items 2` renders exactly two expanded instances. -/
theorem list_set_min_items_witness :
    format_block_type "network_rule" network_rule_meta (Block.mk rule_attrs []) true 1 false =
      .ok ["  # # nesting: set, min: 0, max: 5",
           "  # Repeat this block as needed (min: 0, max: 5)",
           "  network_rule \x7b  # optional, uncomment and fill if needed",
           "    # ...",
           "  \x7d"] ∧
    format_block_type "rule" two_rule_meta (Block.mk rule_attrs []) true 1 false =
      .ok ["  # # nesting: list, min: 2",
           "  # Repeat this block as needed (min: 2)",
           "  rule \x7b", "    port = 0  # required, type: number", "  \x7d",
           "  rule \x7b", "    port = 0  # required, type: number", "  \x7d"] :=
  ⟨(list_set_min_items "network_rule" network_rule_meta rule_attrs [] true 1 false
      (Or.inr rfl)).2 rfl rfl,
   (list_set_min_items "rule" two_rule_meta rule_attrs [] true 1 false
      (Or.inl rfl)).1 (by decide)⟩

/-! Error-payload lemmas: every exception the renderers propagate is the
`IndexError` of `_parse_type`. -/

/-- Exceptions escaping `_format_attribute` are `IndexError`s. -/
theorem format_attribute_error (name : String) (schema : AttrSchema)
    (wd : Bool) (il : Nat) (ro : Bool) (e : String)
    (h : format_attribute name schema wd il ro = .error e) : e = "IndexError" := by
  unfold format_attribute at h
  split at h
  · simp at h
  · cases hp : parse_type schema.type with
    | error e' =>
      simp only [hp, Except.error.injEq] at h
      exact h ▸ parse_type_error _ _ hp
    | ok ty =>
      simp only [hp] at h
      split at h
      · simp at h
      · split at h <;> (try split at h) <;> simp at h

/-- Exceptions escaping the attribute loop are `IndexError`s. -/
theorem format_attr_list_error : ∀ (l : List (String × AttrSchema)) (wd : Bool)
    (il : Nat) (ro : Bool) (e : String),
    format_attr_list l wd il ro = .error e → e = "IndexError"
  | [], _, _, _, e, h => by simp [format_attr_list] at h
  | (n, s) :: rest, wd, il, ro, e, h => by
    simp only [format_attr_list] at h
    cases ha : format_attribute n s wd il ro with
    | error e' =>
      simp only [ha, Except.error.injEq] at h
      exact h ▸ format_attribute_error n s wd il ro e' ha
    | ok ls =>
      simp only [ha] at h
      cases hrest : format_attr_list rest wd il ro with
      | error e' =>
        simp only [hrest, Except.error.injEq] at h
        exact h ▸ format_attr_list_error rest wd il ro e' hrest
      | ok more => simp [hrest] at h

/-- An exception escaping `combine_rendered` is one of its members'. -/
theorem combine_rendered_error :
    ∀ (l : List (String × Except String (List String))) (e : String),
    combine_rendered l = .error e → ∃ n, (n, Except.error e) ∈ l
  | [], e, h => by simp [combine_rendered] at h
  | (n, .error e') :: rest, e, h => by
    simp only [combine_rendered, Except.error.injEq] at h
    exact ⟨n, by rw [← h]; exact List.mem_cons_self _ _⟩
  | (n, .ok ls) :: rest, e, h => by
    simp only [combine_rendered] at h
    cases hr : combine_rendered rest with
    | error e' =>
      simp only [hr, Except.error.injEq] at h
      obtain ⟨m, hm⟩ := combine_rendered_error rest e' hr
      exact ⟨m, List.mem_cons_of_mem _ (h ▸ hm)⟩
    | ok more => simp [hr] at h

/-- Insertion adds exactly one membership possibility. -/
theorem mem_insert_by_key {α : Type} (x y : String × α) :
    ∀ l : List (String × α), y ∈ insert_by_key x l ↔ y = x ∨ y ∈ l
  | [] => by simp [insert_by_key]
  | z :: zs => by
    simp only [insert_by_key]
    split
    · simp only [List.mem_cons]
    · rw [List.mem_cons, mem_insert_by_key x y zs, List.mem_cons]
      tauto

/-- Sorting preserves membership. -/
theorem mem_sort_by_key {α : Type} (y : String × α) :
    ∀ l : List (String × α), y ∈ sort_by_key l ↔ y ∈ l
  | [] => Iff.rfl
  | x :: xs => by
    simp only [sort_by_key]
    rw [mem_insert_by_key, mem_sort_by_key y xs, List.mem_cons]

/-- Exceptions escaping a block body are its members', hence
`IndexError`s when every member's are. -/
theorem block_body_error (attrs : List (String × AttrSchema))
    (rbts : List (String × Except String (List String)))
    (wd : Bool) (il : Nat) (ro : Bool) (e : String)
    (hm : ∀ n e', (n, Except.error e') ∈ rbts → e' = "IndexError")
    (h : block_body attrs rbts wd il ro = .error e) : e = "IndexError" := by
  unfold block_body at h
  cases ha : format_attr_list (sort_by_key attrs) wd il ro with
  | error e' =>
    simp only [ha, Except.error.injEq] at h
    exact h ▸ format_attr_list_error _ wd il ro e' ha
  | ok als =>
    simp only [ha] at h
    cases hc : combine_rendered (sort_by_key rbts) with
    | error e' =>
      simp only [hc, Except.error.injEq] at h
      obtain ⟨nn, hmem⟩ := combine_rendered_error _ e' hc
      exact h ▸ hm nn e' ((mem_sort_by_key _ _).mp hmem)
    | ok more => simp [hc] at h

mutual

/-- Exceptions escaping `_format_block_type` are `IndexError`s. -/
theorem format_block_type_error : ∀ (n : String) (m : BTMeta) (b : Block)
    (wd : Bool) (il : Nat) (ro : Bool) (e : String),
    format_block_type n m b wd il ro = .error e → e = "IndexError"
  | n, m, .mk attrs bts, wd, il, ro, e, h => by
    simp only [format_block_type] at h
    split at h
    · simp at h
    · split at h
      · cases hb : block_body attrs (render_bts bts wd (il + 1) ro) wd (il + 1) ro with
        | error e' =>
          simp only [hb, Except.error.injEq] at h
          exact h ▸ block_body_error attrs _ wd (il + 1) ro e'
            (fun nn ee hmem => render_bts_error bts wd (il + 1) ro nn ee hmem) hb
        | ok body => simp [hb] at h
      · split at h
        · split at h
          · cases hb : block_body attrs (render_bts bts wd (il + 1) ro) wd (il + 1) ro with
            | error e' =>
              simp only [hb, Except.error.injEq] at h
              exact h ▸ block_body_error attrs _ wd (il + 1) ro e'
                (fun nn ee hmem => render_bts_error bts wd (il + 1) ro nn ee hmem) hb
            | ok body => simp [hb] at h
          · simp at h
        · split at h
          · cases hb : block_body attrs (render_bts bts wd (il + 2) ro) wd (il + 2) ro with
            | error e' =>
              simp only [hb, Except.error.injEq] at h
              exact h ▸ block_body_error attrs _ wd (il + 2) ro e'
                (fun nn ee hmem => render_bts_error bts wd (il + 2) ro nn ee hmem) hb
            | ok body => simp [hb] at h
          · simp at h

/-- Exceptions carried by rendered block-type members are `IndexError`s. -/
theorem render_bts_error : ∀ (l : List (String × BTMeta × Block)) (wd : Bool)
    (il : Nat) (ro : Bool) (n : String) (e : String),
    (n, Except.error e) ∈ render_bts l wd il ro → e = "IndexError"
  | [], _, _, _, _, _, h => by simp [render_bts] at h
  | (bn, bm, bb) :: rest, wd, il, ro, n, e, h => by
    simp only [render_bts, List.mem_cons] at h
    rcases h with h | h
    · exact format_block_type_error bn bm bb wd il ro e (congrArg Prod.snd h).symm
    · exact render_bts_error rest wd il ro n e h

end

/-- Exceptions escaping a block render are `IndexError`s. -/
theorem render_block_body_error (b : Block) (wd : Bool) (il : Nat) (ro : Bool)
    (e : String) (h : render_block_body b wd il ro = .error e) : e = "IndexError" := by
  cases b with
  | mk attrs bts =>
    unfold render_block_body at h
    exact block_body_error attrs _ wd il ro e
      (fun nn ee hmem => render_bts_error bts wd il ro nn ee hmem) h

/-! Success lemmas: with well-formed type expressions the renderers never
raise. -/

/-- The Attribute Renderer succeeds on a well-formed type expression. -/
theorem format_attribute_ok (name : String) (schema : AttrSchema)
    (wd : Bool) (il : Nat) (ro : Bool) (hw : schema.type.wf = true) :
    ∃ ls, format_attribute name schema wd il ro = .ok ls := by
  unfold format_attribute
  split
  · exact ⟨[], rfl⟩
  · obtain ⟨s, hs⟩ := parse_type_ok_of_wf _ hw
    simp only [hs]
    split
    · exact ⟨[], rfl⟩
    · split <;> (try split) <;> exact ⟨_, rfl⟩

/-- The attribute loop succeeds when every member's type is well-formed. -/
theorem format_attr_list_ok : ∀ (l : List (String × AttrSchema)) (wd : Bool)
    (il : Nat) (ro : Bool), (∀ x ∈ l, x.2.type.wf = true) →
    ∃ ls, format_attr_list l wd il ro = .ok ls
  | [], _, _, _, _ => ⟨[], rfl⟩
  | (n, s) :: rest, wd, il, ro, hw => by
    obtain ⟨ls, hls⟩ := format_attribute_ok n s wd il ro
      (hw (n, s) (List.mem_cons_self _ _))
    obtain ⟨more, hmore⟩ := format_attr_list_ok rest wd il ro
      (fun x hx => hw x (List.mem_cons_of_mem _ hx))
    exact ⟨ls ++ more, by simp only [format_attr_list, hls, hmore]⟩

/-- Combination succeeds when every member succeeded. -/
theorem combine_rendered_ok : ∀ l : List (String × Except String (List String)),
    (∀ x ∈ l, ∃ ls, x.2 = .ok ls) → ∃ ls, combine_rendered l = .ok ls
  | [], _ => ⟨[], rfl⟩
  | (n, r) :: rest, hm => by
    obtain ⟨ls, hls⟩ := hm (n, r) (List.mem_cons_self _ _)
    obtain ⟨more, hmore⟩ := combine_rendered_ok rest
      (fun x hx => hm x (List.mem_cons_of_mem _ hx))
    simp only at hls
    subst hls
    exact ⟨ls ++ more, by simp only [combine_rendered, hmore]⟩

/-- A block body renders when its attribute types are well-formed and its
block-type members rendered. -/
theorem block_body_ok (attrs : List (String × AttrSchema))
    (rbts : List (String × Except String (List String)))
    (wd : Bool) (il : Nat) (ro : Bool)
    (ha : ∀ x ∈ attrs, x.2.type.wf = true)
    (hb : ∀ x ∈ rbts, ∃ ls, x.2 = .ok ls) :
    ∃ ls, block_body attrs rbts wd il ro = .ok ls := by
  obtain ⟨als, hals⟩ := format_attr_list_ok (sort_by_key attrs) wd il ro
    (fun x hx => ha x ((mem_sort_by_key _ _).mp hx))
  obtain ⟨bls, hbls⟩ := combine_rendered_ok (sort_by_key rbts)
    (fun x hx => hb x ((mem_sort_by_key _ _).mp hx))
  exact ⟨als ++ bls, by simp only [block_body, hals, hbls]⟩

mutual

/-- The Block Renderer succeeds when every type in the subtree is
well-formed. -/
theorem format_block_type_ok : ∀ (n : String) (m : BTMeta) (b : Block)
    (wd : Bool) (il : Nat) (ro : Bool), Block.types_ok b = true →
    ∃ ls, format_block_type n m b wd il ro = .ok ls
  | n, m, .mk attrs bts, wd, il, ro, hok => by
    simp only [Block.types_ok, Bool.and_eq_true, List.all_eq_true] at hok
    obtain ⟨hA, hB⟩ := hok
    simp only [format_block_type]
    split
    · exact ⟨[], rfl⟩
    · split
      · obtain ⟨body, hbody⟩ := block_body_ok attrs _ wd (il + 1) ro
          (fun x hx => hA x hx)
          (fun x hx => render_bts_ok bts wd (il + 1) ro hB x hx)
        simp only [hbody]
        exact ⟨_, rfl⟩
      · split
        · split
          · obtain ⟨body, hbody⟩ := block_body_ok attrs _ wd (il + 1) ro
              (fun x hx => hA x hx)
              (fun x hx => render_bts_ok bts wd (il + 1) ro hB x hx)
            simp only [hbody]
            exact ⟨_, rfl⟩
          · exact ⟨_, rfl⟩
        · split
          · obtain ⟨body, hbody⟩ := block_body_ok attrs _ wd (il + 2) ro
              (fun x hx => hA x hx)
              (fun x hx => render_bts_ok bts wd (il + 2) ro hB x hx)
            simp only [hbody]
            exact ⟨_, rfl⟩
          · exact ⟨_, rfl⟩

/-- Every rendered block-type member succeeds when the subtree types are
well-formed. -/
theorem render_bts_ok : ∀ (l : List (String × BTMeta × Block)) (wd : Bool)
    (il : Nat) (ro : Bool), bts_types_ok l = true →
    ∀ x ∈ render_bts l wd il ro, ∃ ls, x.2 = .ok ls
  | [], _, _, _, _, x, hx => by simp [render_bts] at hx
  | (bn, bm, bb) :: rest, wd, il, ro, hok, x, hx => by
    simp only [bts_types_ok, Bool.and_eq_true] at hok
    simp only [render_bts, List.mem_cons] at hx
    rcases hx with rfl | hx
    · exact format_block_type_ok bn bm bb wd il ro hok.1
    · exact render_bts_ok rest wd il ro hok.2 x hx

end

/-- A whole block renders when every type in its subtree is well-formed. -/
theorem render_block_body_ok (b : Block) (wd : Bool) (il : Nat) (ro : Bool)
    (h : Block.types_ok b = true) : ∃ ls, render_block_body b wd il ro = .ok ls := by
  cases b with
  | mk attrs bts =>
    simp only [Block.types_ok, Bool.and_eq_true, List.all_eq_true] at h
    exact block_body_ok attrs _ wd il ro (fun x hx => h.1 x hx)
      (fun x hx => render_bts_ok bts wd il ro h.2 x hx)

/-- C2, amended: the entry point raises the `No schema found` error
exactly when the resolved block is missing or empty — in particular
whenever the name exists in neither category, but also for a present
entry whose `block` dict is falsy; and for every present entry with a
nonempty block whose type expressions are all well-formed it returns a
complete template string. Failure is atomic by construction: the call
returns either a complete string or a single raised exception, never
partial output. -/
theorem notfound_iff (p : TerraformSchemaParser) (name : String)
    (wd ro : Bool) :
    (generate_hcl_template p name wd ro 0 =
        .error ("No schema found for " ++ name) ↔
      get_schema_block p name = none) ∧
    (∀ b, get_schema_block p name = some b → Block.types_ok b = true →
      ∃ t, generate_hcl_template p name wd ro 0 = .ok t) := by
  constructor
  · constructor
    · intro h
      cases hb : get_schema_block p name with
      | none => rfl
      | some blk =>
        exfalso
        unfold generate_hcl_template generate_hcl_template_lines at h
        simp only [hb] at h
        cases hr : render_block_body blk wd (0 + 1) ro with
        | ok body => simp [hr] at h
        | error e =>
          simp only [hr, Except.error.injEq] at h
          rw [render_block_body_error blk wd (0 + 1) ro e hr] at h
          have hlen := congrArg String.length h
          rw [String.length_append] at hlen
          have h10 : ("IndexError" : String).length = 10 := rfl
          have h20 : ("No schema found for " : String).length = 20 := rfl
          rw [h10, h20] at hlen
          omega
    · intro h
      unfold generate_hcl_template generate_hcl_template_lines
      simp only [h]
  · intro b hb hok
    obtain ⟨body, hbody⟩ := render_block_body_ok b wd (0 + 1) ro hok
    cases hg : generate_hcl_template p name wd ro 0 with
    | ok t => exact ⟨t, rfl⟩
    | error e =>
      exfalso
      unfold generate_hcl_template generate_hcl_template_lines at hg
      simp only [hb, hbody] at hg
      simp at hg

/-- C2, counterexample: a name present in the resource category whose
entry has a missing or empty `block` dict still fails with the
`No schema found` error, so presence in a category does not guarantee a
template and the failure is not limited to names absent from both
categories. -/
theorem notfound_counterexample :
    (empty_block_schema.resources.lookup "widget").isSome = true ∧
    generate_hcl_template empty_block_schema "widget" true false 0 =
      .error "No schema found for widget" :=
  ⟨rfl, rfl⟩

/-- Witness for `notfound_iff`: the `example_widget` entry renders. -/
theorem notfound_iff_witness :
    ∃ t, generate_hcl_template example_widget_schema "example_widget" true false 0 = .ok t :=
  (notfound_iff example_widget_schema "example_widget" true false).2
    example_widget_block rfl rfl

/-! Subset lemmas: the `required_only=true` rendering is contained in the
full rendering. -/

/-- `required_only` affects `_format_attribute` only through its skip
guard. -/
theorem format_attribute_ro (name : String) (s : AttrSchema) (wd : Bool)
    (il : Nat) :
    format_attribute name s wd il true =
      if s.required = true then format_attribute name s wd il false
      else .ok [] := by
  cases hreq : s.required <;> simp [format_attribute, hreq]

/-- Lines of the restricted attribute loop occur in the full one. -/
theorem format_attr_list_subset : ∀ (l : List (String × AttrSchema))
    (wd : Bool) (il : Nat) (l1 l2 : List String),
    format_attr_list l wd il true = .ok l1 →
    format_attr_list l wd il false = .ok l2 →
    ∀ x ∈ l1, x ∈ l2
  | [], _, _, l1, l2, h1, h2, x, hx => by
    simp only [format_attr_list, Except.ok.injEq] at h1
    rw [← h1] at hx
    simp at hx
  | (n, s) :: rest, wd, il, l1, l2, h1, h2, x, hx => by
    simp only [format_attr_list] at h1 h2
    cases ha2 : format_attribute n s wd il false with
    | error e => simp [ha2] at h2
    | ok ls2 =>
      simp only [ha2] at h2
      cases hr2 : format_attr_list rest wd il false with
      | error e => simp [hr2] at h2
      | ok more2 =>
        simp only [hr2, Except.ok.injEq] at h2
        rw [format_attribute_ro] at h1
        cases hreq : s.required with
        | true =>
          simp only [hreq, if_true, ha2] at h1
          cases hr1 : format_attr_list rest wd il true with
          | error e => simp [hr1] at h1
          | ok more1 =>
            simp only [hr1, Except.ok.injEq] at h1
            rw [← h1] at hx
            rw [← h2]
            rcases List.mem_append.mp hx with hxa | hxm
            · exact List.mem_append.mpr (Or.inl hxa)
            · exact List.mem_append.mpr
                (Or.inr (format_attr_list_subset rest wd il _ _ hr1 hr2 x hxm))
        | false =>
          simp only [hreq, Bool.false_eq_true, if_false] at h1
          cases hr1 : format_attr_list rest wd il true with
          | error e => simp [hr1] at h1
          | ok more1 =>
            simp only [hr1, Except.ok.injEq] at h1
            rw [← h1] at hx
            simp only [List.nil_append] at hx
            rw [← h2]
            exact List.mem_append.mpr
              (Or.inr (format_attr_list_subset rest wd il _ _ hr1 hr2 x hx))

/-- Lines of the restricted combination occur in the full one, member by
member. -/
theorem combine_rendered_subset :
    ∀ {l1 l2 : List (String × Except String (List String))},
    List.Forall₂ ro_sub_rel l1 l2 →
    ∀ (c1 c2 : List String), combine_rendered l1 = .ok c1 →
    combine_rendered l2 = .ok c2 → ∀ x ∈ c1, x ∈ c2 := by
  intro l1 l2 hrel
  induction hrel with
  | nil =>
    intro c1 c2 h1 h2 x hx
    simp only [combine_rendered, Except.ok.injEq] at h1 h2
    rw [← h1] at hx
    simp at hx
  | cons hab hrest ih =>
    intro c1 c2 h1 h2 x hx
    rename_i a b l1' l2'
    obtain ⟨ls1, hls1⟩ : ∃ ls1, a.2 = .ok ls1 := by
      cases hv : a.2 with
      | error e =>
        obtain ⟨an, a2⟩ := a
        simp only at hv
        subst hv
        simp [combine_rendered] at h1
      | ok v => exact ⟨v, rfl⟩
    obtain ⟨ls2, hls2⟩ : ∃ ls2, b.2 = .ok ls2 := by
      cases hv : b.2 with
      | error e =>
        obtain ⟨bn, b2⟩ := b
        simp only at hv
        subst hv
        simp [combine_rendered] at h2
      | ok v => exact ⟨v, rfl⟩
    obtain ⟨an, a2⟩ := a
    obtain ⟨bn, b2⟩ := b
    simp only at hls1 hls2
    subst hls1
    subst hls2
    simp only [combine_rendered] at h1 h2
    cases hr1 : combine_rendered l1' with
    | error e => simp [hr1] at h1
    | ok more1 =>
      cases hr2 : combine_rendered l2' with
      | error e => simp [hr2] at h2
      | ok more2 =>
        simp only [hr1, Except.ok.injEq] at h1
        simp only [hr2, Except.ok.injEq] at h2
        rw [← h1] at hx
        rw [← h2]
        rcases List.mem_append.mp hx with hxa | hxm
        · exact List.mem_append.mpr (Or.inl (hab.2 ls1 ls2 rfl rfl x hxa))
        · exact List.mem_append.mpr (Or.inr (ih more1 more2 hr1 hr2 x hxm))

/-- Inserting related members into pointwise-related lists keeps them
pointwise related, since the insertion point depends only on the (equal)
keys. -/
theorem insert_by_key_forall2 {x y : String × Except String (List String)}
    (hxy : ro_sub_rel x y) :
    ∀ {l1 l2}, List.Forall₂ ro_sub_rel l1 l2 →
    List.Forall₂ ro_sub_rel (insert_by_key x l1) (insert_by_key y l2) := by
  intro l1 l2 h
  induction h with
  | nil => exact List.Forall₂.cons hxy List.Forall₂.nil
  | cons hzw hrest ih =>
    rename_i z w l1' l2'
    simp only [insert_by_key]
    rw [hxy.1, hzw.1]
    by_cases hc : py_str_le y.1 w.1 = true
    · simp only [hc, if_true]
      exact List.Forall₂.cons hxy (List.Forall₂.cons hzw hrest)
    · simp only [(by simpa using hc : py_str_le y.1 w.1 = false), Bool.false_eq_true,
        if_false]
      exact List.Forall₂.cons hzw ih

/-- Sorting pointwise-related lists by their (equal) keys keeps them
pointwise related. -/
theorem sort_by_key_forall2 : ∀ {l1 l2 : List (String × Except String (List String))},
    List.Forall₂ ro_sub_rel l1 l2 →
    List.Forall₂ ro_sub_rel (sort_by_key l1) (sort_by_key l2) := by
  intro l1 l2 h
  induction h with
  | nil => exact List.Forall₂.nil
  | cons hxy hrest ih =>
    simp only [sort_by_key]
    exact insert_by_key_forall2 hxy ih

/-- Lines of a restricted block body occur in the full block body. -/
theorem block_body_subset (attrs : List (String × AttrSchema))
    (r1 r2 : List (String × Except String (List String))) (wd : Bool) (il : Nat)
    (hrel : List.Forall₂ ro_sub_rel r1 r2) (c1 c2 : List String)
    (h1 : block_body attrs r1 wd il true = .ok c1)
    (h2 : block_body attrs r2 wd il false = .ok c2) :
    ∀ x ∈ c1, x ∈ c2 := by
  unfold block_body at h1 h2
  cases ha1 : format_attr_list (sort_by_key attrs) wd il true with
  | error e => simp [ha1] at h1
  | ok a1 =>
    simp only [ha1] at h1
    cases hb1 : combine_rendered (sort_by_key r1) with
    | error e => simp [hb1] at h1
    | ok b1 =>
      simp only [hb1, Except.ok.injEq] at h1
      cases ha2 : format_attr_list (sort_by_key attrs) wd il false with
      | error e => simp [ha2] at h2
      | ok a2 =>
        simp only [ha2] at h2
        cases hb2 : combine_rendered (sort_by_key r2) with
        | error e => simp [hb2] at h2
        | ok b2 =>
          simp only [hb2, Except.ok.injEq] at h2
          intro x hx
          rw [← h1] at hx
          rw [← h2]
          rcases List.mem_append.mp hx with hxa | hxb
          · exact List.mem_append.mpr
              (Or.inl (format_attr_list_subset _ wd il a1 a2 ha1 ha2 x hxa))
          · exact List.mem_append.mpr
              (Or.inr (combine_rendered_subset (sort_by_key_forall2 hrel)
                b1 b2 hb1 hb2 x hxb))

mutual

/-- Every line the Block Renderer emits under `required_only=true` also
occurs in its `required_only=false` rendering of the same block-type. -/
theorem format_block_type_subset : ∀ (n : String) (m : BTMeta) (b : Block)
    (wd : Bool) (il : Nat) (l1 l2 : List String),
    format_block_type n m b wd il true = .ok l1 →
    format_block_type n m b wd il false = .ok l2 →
    ∀ x ∈ l1, x ∈ l2
  | n, m, .mk attrs bts, wd, il, l1, l2, h1, h2, x, hx => by
    simp only [format_block_type, Bool.false_and, Bool.false_eq_true, if_false,
      Bool.true_and] at h1 h2
    by_cases hmin : (m.min_items == 0) = true
    · rw [if_pos hmin] at h1
      simp only [Except.ok.injEq] at h1
      rw [← h1] at hx
      simp at hx
    · have hm' : (m.min_items == 0) = false := by simpa using hmin
      simp only [hm', Bool.false_eq_true, if_false] at h1
      by_cases hsingle : m.nesting_mode = "single"
      · rw [if_pos hsingle] at h1 h2
        cases hbb1 : block_body attrs (render_bts bts wd (il + 1) true) wd (il + 1) true with
        | error e => simp [hbb1] at h1
        | ok body1 =>
          cases hbb2 : block_body attrs (render_bts bts wd (il + 1) false) wd (il + 1) false with
          | error e => simp [hbb2] at h2
          | ok body2 =>
            simp only [hbb1, Except.ok.injEq] at h1
            simp only [hbb2, Except.ok.injEq] at h2
            have hsub := block_body_subset attrs _ _ wd (il + 1)
              (render_bts_rel bts wd (il + 1)) body1 body2 hbb1 hbb2
            rw [← h1] at hx
            rw [← h2]
            simp only [List.mem_append, List.mem_singleton] at hx ⊢
            rcases hx with ((hi | hh) | hb) | hc
            · exact Or.inl (Or.inl (Or.inl hi))
            · exact Or.inl (Or.inl (Or.inr hh))
            · exact Or.inl (Or.inr (hsub x hb))
            · exact Or.inr hc
      · rw [if_neg hsingle] at h1 h2
        by_cases hls : m.nesting_mode = "list" ∨ m.nesting_mode = "set"
        · rw [if_pos hls] at h1 h2
          have hpos : 0 < m.min_items := Nat.pos_of_ne_zero (by simpa using hm')
          rw [if_pos hpos] at h1 h2
          cases hbb1 : block_body attrs (render_bts bts wd (il + 1) true) wd (il + 1) true with
          | error e => simp [hbb1] at h1
          | ok body1 =>
            cases hbb2 : block_body attrs (render_bts bts wd (il + 1) false) wd (il + 1) false with
            | error e => simp [hbb2] at h2
            | ok body2 =>
              simp only [hbb1, Except.ok.injEq] at h1
              simp only [hbb2, Except.ok.injEq] at h2
              have hsub := block_body_subset attrs _ _ wd (il + 1)
                (render_bts_rel bts wd (il + 1)) body1 body2 hbb1 hbb2
              rw [← h1] at hx
              rw [← h2]
              simp only [List.mem_append, List.mem_singleton, List.mem_flatten] at hx ⊢
              rcases hx with (hi | hr) | ⟨l', hl', hxl⟩
              · exact Or.inl (Or.inl hi)
              · exact Or.inl (Or.inr hr)
              · refine Or.inr ⟨(strRepeat "  " il ++ n ++ " \x7b") :: body2 ++
                  [strRepeat "  " il ++ "\x7d"], List.mem_replicate.mpr
                    ⟨by simpa using hm', rfl⟩, ?_⟩
                rw [List.eq_of_mem_replicate hl'] at hxl
                simp only [List.mem_cons, List.mem_append, List.mem_singleton] at hxl ⊢
                rcases hxl with (hh | hb) | hc
                · exact Or.inl (Or.inl hh)
                · exact Or.inl (Or.inr (hsub x hb))
                · exact Or.inr hc
        · rw [if_neg hls] at h1 h2
          by_cases hmap : m.nesting_mode = "map"
          · rw [if_pos hmap] at h1 h2
            cases hbb1 : block_body attrs (render_bts bts wd (il + 2) true) wd (il + 2) true with
            | error e => simp [hbb1] at h1
            | ok body1 =>
              cases hbb2 : block_body attrs (render_bts bts wd (il + 2) false) wd (il + 2) false with
              | error e => simp [hbb2] at h2
              | ok body2 =>
                simp only [hbb1, Except.ok.injEq] at h1
                simp only [hbb2, Except.ok.injEq] at h2
                have hsub := block_body_subset attrs _ _ wd (il + 2)
                  (render_bts_rel bts wd (il + 2)) body1 body2 hbb1 hbb2
                rw [← h1] at hx
                rw [← h2]
                simp only [List.mem_append, List.mem_cons,
                  List.not_mem_nil, or_false] at hx ⊢
                rcases hx with ((hi | hh) | hb) | hc
                · exact Or.inl (Or.inl (Or.inl hi))
                · exact Or.inl (Or.inl (Or.inr hh))
                · exact Or.inl (Or.inr (hsub x hb))
                · exact Or.inr hc
          · rw [if_neg hmap] at h1 h2
            simp only [Except.ok.injEq] at h1 h2
            rw [← h1] at hx
            rw [← h2]
            exact hx

/-- The restricted and full renderings of a block-type dict are pointwise
related member by member. -/
theorem render_bts_rel : ∀ (l : List (String × BTMeta × Block)) (wd : Bool)
    (il : Nat),
    List.Forall₂ ro_sub_rel (render_bts l wd il true) (render_bts l wd il false)
  | [], _, _ => by simp [render_bts]
  | (bn, bm, bb) :: rest, wd, il => by
    simp only [render_bts]
    exact List.Forall₂.cons
      ⟨rfl, fun c1 c2 hc1 hc2 => format_block_type_subset bn bm bb wd il c1 c2 hc1 hc2⟩
      (render_bts_rel rest wd il)

end

/-- C3, amended: the lines rendered with `required_only=true` are a subset
(not necessarily strict) of the lines rendered with `required_only=false`
for the same entry and description flag; the restricted rendering draws
only from required attributes (non-required ones contribute nothing) and
from block-types with `min_items > 0` (blocks with `min_items = 0`
contribute nothing). -/
theorem required_only_subset (p : TerraformSchemaParser) (name : String)
    (wd : Bool) :
    (∀ l1 l2, generate_hcl_template_lines p name wd true 0 = .ok l1 →
      generate_hcl_template_lines p name wd false 0 = .ok l2 →
      ∀ x ∈ l1, x ∈ l2) ∧
    (∀ (n : String) (s : AttrSchema) (il : Nat), s.required = false →
      format_attribute n s wd il true = .ok []) ∧
    (∀ (n : String) (m : BTMeta) (b : Block) (il : Nat), m.min_items = 0 →
      format_block_type n m b wd il true = .ok []) := by
  refine ⟨?_, ?_, ?_⟩
  · intro l1 l2 h1 h2 x hx
    unfold generate_hcl_template_lines at h1 h2
    cases hb : get_schema_block p name with
    | none => simp [hb] at h1
    | some blk =>
      simp only [hb] at h1 h2
      cases hr1 : render_block_body blk wd (0 + 1) true with
      | error e => simp [hr1] at h1
      | ok body1 =>
        cases hr2 : render_block_body blk wd (0 + 1) false with
        | error e => simp [hr2] at h2
        | ok body2 =>
          simp only [hr1, Except.ok.injEq] at h1
          simp only [hr2, Except.ok.injEq] at h2
          have hsub : ∀ y ∈ body1, y ∈ body2 := by
            cases blk with
            | mk attrs bts =>
              exact block_body_subset attrs _ _ wd (0 + 1)
                (render_bts_rel bts wd (0 + 1)) body1 body2 hr1 hr2
          rw [← h1] at hx
          rw [← h2]
          simp only [List.mem_cons, List.mem_append, List.mem_singleton] at hx ⊢
          rcases hx with (hh | hb') | hc
          · exact Or.inl (Or.inl hh)
          · exact Or.inl (Or.inr (hsub x hb'))
          · exact Or.inr hc
  · intro n s il h
    simp [format_attribute, h]
  · intro n m b il h
    cases b with
    | mk attrs bts => simp [format_block_type, h]

/-- C3, counterexample to strictness: for an entry whose only attribute is
required, the `required_only=true` rendering is identical to the full
rendering, so the restricted line set is not a proper subset. -/
theorem required_only_strict_counterexample :
    generate_hcl_template_lines example_widget_schema "example_widget" true true 0 =
      generate_hcl_template_lines example_widget_schema "example_widget" true false 0 ∧
    generate_hcl_template example_widget_schema "example_widget" true true 0 =
      generate_hcl_template example_widget_schema "example_widget" true false 0 :=
  ⟨rfl, rfl⟩

/-- Witness for `required_only_subset` at concrete inputs. -/
theorem required_only_subset_witness :
    "  display_name = azurerm_display.example.name  # required, type: string" ∈
      (["resource \"example_widget\" \"example\" \x7b",
        "  display_name = azurerm_display.example.name  # required, type: string",
        "\x7d"] : List String) ∧
    format_attribute "note" optional_attr true 1 true = .ok [] ∧
    format_block_type "network_rule" network_rule_meta (Block.mk rule_attrs [])
      true 1 true = .ok [] :=
  ⟨(required_only_subset example_widget_schema "example_widget" true).1
      ["resource \"example_widget\" \"example\" \x7b",
       "  display_name = azurerm_display.example.name  # required, type: string",
       "\x7d"]
      ["resource \"example_widget\" \"example\" \x7b",
       "  display_name = azurerm_display.example.name  # required, type: string",
       "\x7d"] rfl rfl
      "  display_name = azurerm_display.example.name  # required, type: string"
      (List.mem_cons_of_mem _ (List.mem_cons_self _ _)),
   (required_only_subset example_widget_schema "example_widget" true).2.1
      "note" optional_attr 1 rfl,
   (required_only_subset example_widget_schema "example_widget" true).2.2
      "network_rule" network_rule_meta (Block.mk rule_attrs []) 1 rfl⟩

/-! Order lemmas for the key sort (claim C8). -/

/-- Characters with equal code points are equal. -/
theorem char_eq_of_toNat_eq {a b : Char} (h : a.toNat = b.toNat) : a = b :=
  Char.eq_of_val_eq (UInt32.eq_of_toBitVec_eq (BitVec.eq_of_toNat_eq h))

/-- The code-point order is total. -/
theorem py_chars_le_total : ∀ a b : List Char,
    py_chars_le a b = true ∨ py_chars_le b a = true
  | [], _ => Or.inl rfl
  | _ :: _, [] => Or.inr rfl
  | a :: as, b :: bs => by
    by_cases h1 : a.toNat < b.toNat
    · exact Or.inl (by simp [py_chars_le, h1])
    · by_cases h2 : b.toNat < a.toNat
      · exact Or.inr (by simp [py_chars_le, h2])
      · rcases py_chars_le_total as bs with h | h
        · exact Or.inl (by simp [py_chars_le, h1, h2, h])
        · exact Or.inr (by simp [py_chars_le, h1, h2, h])

/-- The code-point order is transitive. -/
theorem py_chars_le_trans : ∀ a b c : List Char, py_chars_le a b = true →
    py_chars_le b c = true → py_chars_le a c = true
  | [], _, _, _, _ => rfl
  | _ :: _, [], _, h, _ => by simp [py_chars_le] at h
  | _ :: _, _ :: _, [], _, h => by simp [py_chars_le] at h
  | a :: as, b :: bs, c :: cs, h1, h2 => by
    simp only [py_chars_le] at h1 h2 ⊢
    by_cases hab : a.toNat < b.toNat
    · by_cases hbc : b.toNat < c.toNat
      · simp [show a.toNat < c.toNat from Nat.lt_trans hab hbc]
      · by_cases hcb : c.toNat < b.toNat
        · simp [hbc, hcb] at h2
        · have : b.toNat = c.toNat := by omega
          simp [show a.toNat < c.toNat from this ▸ hab]
    · by_cases hba : b.toNat < a.toNat
      · simp [hab, hba] at h1
      · have hab' : a.toNat = b.toNat := by omega
        simp only [hab, hba, if_false] at h1
        by_cases hbc : b.toNat < c.toNat
        · simp [show a.toNat < c.toNat from hab' ▸ hbc]
        · by_cases hcb : c.toNat < b.toNat
          · simp [hbc, hcb] at h2
          · simp only [hbc, hcb, if_false] at h2
            have hac : ¬ a.toNat < c.toNat := by omega
            have hca : ¬ c.toNat < a.toNat := by omega
            simp [hac, hca, py_chars_le_trans as bs cs h1 h2]

/-- Weak order plus inequality gives the strict order. -/
theorem py_chars_lt_of_le_ne : ∀ a b : List Char, py_chars_le a b = true →
    a ≠ b → py_chars_lt a b = true
  | [], [], _, hne => absurd rfl hne
  | [], _ :: _, _, _ => rfl
  | _ :: _, [], h, _ => by simp [py_chars_le] at h
  | a :: as, b :: bs, h, hne => by
    simp only [py_chars_le] at h
    simp only [py_chars_lt]
    by_cases h1 : a.toNat < b.toNat
    · simp [h1]
    · by_cases h2 : b.toNat < a.toNat
      · simp [h1, h2] at h
      · have hab : a = b :=
          char_eq_of_toNat_eq (by omega)
        subst hab
        simp only [h1, h2, if_false] at h ⊢
        exact py_chars_lt_of_le_ne as bs h (fun hh => hne (by rw [hh]))

/-- The strict code-point order is asymmetric. -/
theorem py_chars_lt_asymm : ∀ a b : List Char, py_chars_lt a b = true →
    py_chars_lt b a = true → False
  | [], [], h, _ => by simp [py_chars_lt] at h
  | [], _ :: _, _, h => by simp [py_chars_lt] at h
  | _ :: _, [], h, _ => by simp [py_chars_lt] at h
  | a :: as, b :: bs, h1, h2 => by
    simp only [py_chars_lt] at h1 h2
    by_cases hab : a.toNat < b.toNat
    · have hba : ¬ b.toNat < a.toNat := by omega
      simp [hba, show ¬ a.toNat < b.toNat → False from fun hh => hh hab, hab] at h2
    · by_cases hba : b.toNat < a.toNat
      · simp [hab, hba] at h1
      · simp only [hab, hba, if_false] at h1 h2
        exact py_chars_lt_asymm as bs h1 h2

/-- Strings with equal character data are equal. -/
theorem str_eq_of_data_eq : ∀ {a b : String}, a.data = b.data → a = b := by
  intro a b h
  cases a
  cases b
  exact congrArg String.mk h

/-- String-level totality of the Python order. -/
theorem py_str_le_total (a b : String) :
    py_str_le a b = true ∨ py_str_le b a = true :=
  py_chars_le_total a.data b.data

/-- String-level transitivity of the Python order. -/
theorem py_str_le_trans (a b c : String) (h1 : py_str_le a b = true)
    (h2 : py_str_le b c = true) : py_str_le a c = true :=
  py_chars_le_trans a.data b.data c.data h1 h2

/-- String-level strictness from inequality. -/
theorem py_str_lt_of_le_ne (a b : String) (h1 : py_str_le a b = true)
    (h2 : a ≠ b) : py_str_lt a b = true :=
  py_chars_lt_of_le_ne a.data b.data h1 (fun hd => h2 (str_eq_of_data_eq hd))

/-- String-level asymmetry of the strict order. -/
theorem py_str_lt_asymm (a b : String) (h1 : py_str_lt a b = true)
    (h2 : py_str_lt b a = true) : False :=
  py_chars_lt_asymm a.data b.data h1 h2

/-- Insertion permutes the consed list. -/
theorem insert_by_key_perm {α : Type} (x : String × α) :
    ∀ l : List (String × α), (insert_by_key x l).Perm (x :: l)
  | [] => List.Perm.refl _
  | y :: ys => by
    simp only [insert_by_key]
    split
    · exact List.Perm.refl _
    · exact ((insert_by_key_perm x ys).cons y).trans (List.Perm.swap x y ys)

/-- Sorting permutes the dict. -/
theorem sort_by_key_perm {α : Type} : ∀ l : List (String × α),
    (sort_by_key l).Perm l
  | [] => List.Perm.refl _
  | x :: xs =>
    (insert_by_key_perm x (sort_by_key xs)).trans ((sort_by_key_perm xs).cons x)

/-- Insertion into a key-sorted list keeps it key-sorted. -/
theorem insert_by_key_pairwise {α : Type} (x : String × α) :
    ∀ l : List (String × α),
    List.Pairwise (fun a b : String × α => py_str_le a.1 b.1 = true) l →
    List.Pairwise (fun a b : String × α => py_str_le a.1 b.1 = true)
      (insert_by_key x l)
  | [], _ => by simp [insert_by_key]
  | z :: zs, h => by
    obtain ⟨hz, hzs⟩ := List.pairwise_cons.mp h
    simp only [insert_by_key]
    split
    · rename_i hc
      refine List.pairwise_cons.mpr ⟨?_, h⟩
      intro w hw
      rcases List.mem_cons.mp hw with rfl | hw'
      · exact hc
      · exact py_str_le_trans _ _ _ hc (hz w hw')
    · rename_i hc
      have hzx : py_str_le z.1 x.1 = true := by
        rcases py_str_le_total x.1 z.1 with h' | h'
        · exact absurd h' hc
        · exact h'
      refine List.pairwise_cons.mpr ⟨?_, insert_by_key_pairwise x zs hzs⟩
      intro w hw
      rcases (mem_insert_by_key x w zs).mp hw with rfl | hw'
      · exact hzx
      · exact hz w hw'

/-- The key sort produces a key-sorted list. -/
theorem sort_by_key_pairwise {α : Type} : ∀ l : List (String × α),
    List.Pairwise (fun a b : String × α => py_str_le a.1 b.1 = true)
      (sort_by_key l)
  | [] => List.Pairwise.nil
  | x :: xs => insert_by_key_pairwise x _ (sort_by_key_pairwise xs)

/-- With pairwise-distinct keys the key sort is strictly ascending. -/
theorem sort_by_key_strict {α : Type} (l : List (String × α))
    (hnd : (l.map Prod.fst).Nodup) :
    List.Pairwise (fun a b : String × α => py_str_lt a.1 b.1 = true)
      (sort_by_key l) := by
  have hnd' : ((sort_by_key l).map Prod.fst).Nodup :=
    (((sort_by_key_perm l).map Prod.fst).nodup_iff).mpr hnd
  have hne : List.Pairwise (fun a b : String × α => a.1 ≠ b.1) (sort_by_key l) :=
    (List.pairwise_map.mp hnd')
  exact ((sort_by_key_pairwise l).and hne).imp
    (fun hab => py_str_lt_of_le_ne _ _ hab.1 hab.2)

/-- With pairwise-distinct keys, the key sort depends only on the members,
not on their source order. -/
theorem sort_by_key_perm_invariant {α : Type} (l l' : List (String × α))
    (hp : l.Perm l') (hnd : (l.map Prod.fst).Nodup) :
    sort_by_key l = sort_by_key l' := by
  have hnd' : (l'.map Prod.fst).Nodup := ((hp.map Prod.fst).nodup_iff).mp hnd
  haveI : IsAntisymm (String × α) (fun a b => py_str_lt a.1 b.1 = true) :=
    ⟨fun a b h1 h2 => (py_str_lt_asymm _ _ h1 h2).elim⟩
  exact List.eq_of_perm_of_sorted
    ((sort_by_key_perm l).trans (hp.trans (sort_by_key_perm l').symm))
    (sort_by_key_strict l hnd) (sort_by_key_strict l' hnd')

/-- C8: at every nesting depth the rendered body is the attribute
renderings followed by the block-type renderings, each drawn from the
key-sorted dict (the template assembler adds only the header line before
and the closing braces after); and the key sort is strictly ascending in
the Python string order whenever the keys are pairwise distinct, with a
result independent of the source ordering of the dict. -/
theorem lexical_order_rendering :
    (∀ (blk : Block) (wd : Bool) (il : Nat) (ro : Bool) (ls : List String),
      render_block_body blk wd il ro = .ok ls →
      ∃ a b, format_attr_list (sort_by_key blk.attributes) wd il ro = .ok a ∧
        combine_rendered (sort_by_key (render_bts blk.block_types wd il ro)) = .ok b ∧
        ls = a ++ b) ∧
    (∀ (p : TerraformSchemaParser) (name : String) (wd ro : Bool) (il : Nat)
      (b : Block) (ls : List String), get_schema_block p name = some b →
      generate_hcl_template_lines p name wd ro il = .ok ls →
      ∃ body, render_block_body b wd (il + 1) ro = .ok body ∧
        ls = ((if (p.resources.lookup name).isSome = true then "resource" else "data") ++
          " \"" ++ name ++ "\" \"example\" \x7b") :: body ++
            [strRepeat "\x7d" (il + 1)]) ∧
    (∀ (α : Type) (l : List (String × α)), (l.map Prod.fst).Nodup →
      List.Pairwise (fun a b : String × α => py_str_lt a.1 b.1 = true)
        (sort_by_key l)) ∧
    (∀ (α : Type) (l l' : List (String × α)), l.Perm l' →
      (l.map Prod.fst).Nodup → sort_by_key l = sort_by_key l') := by
  refine ⟨?_, ?_, fun α l h => sort_by_key_strict l h,
    fun α l l' hp h => sort_by_key_perm_invariant l l' hp h⟩
  · intro blk wd il ro ls h
    cases blk with
    | mk attrs bts =>
      unfold render_block_body block_body at h
      cases ha : format_attr_list (sort_by_key attrs) wd il ro with
      | error e => simp [ha] at h
      | ok a =>
        simp only [ha] at h
        cases hc : combine_rendered (sort_by_key (render_bts bts wd il ro)) with
        | error e => simp [hc] at h
        | ok b =>
          simp only [hc, Except.ok.injEq] at h
          exact ⟨a, b, ha, hc, h.symm⟩
  · intro p name wd ro il b ls hb h
    unfold generate_hcl_template_lines at h
    simp only [hb] at h
    cases hr : render_block_body b wd (il + 1) ro with
    | error e => simp [hr] at h
    | ok body =>
      simp only [hr, Except.ok.injEq] at h
      exact ⟨body, rfl, h.symm⟩

/-- Witness for `lexical_order_rendering` at concrete inputs. -/
theorem lexical_order_rendering_witness :
    (∃ a b, format_attr_list (sort_by_key example_widget_block.attributes) true 1 false = .ok a ∧
      combine_rendered (sort_by_key (render_bts example_widget_block.block_types true 1 false)) = .ok b ∧
      (["  display_name = azurerm_display.example.name  # required, type: string"] :
        List String) = a ++ b) ∧
    (∃ body, render_block_body example_widget_block true (0 + 1) false = .ok body ∧
      (["resource \"example_widget\" \"example\" \x7b",
        "  display_name = azurerm_display.example.name  # required, type: string",
        "\x7d"] : List String) =
        ((if (example_widget_schema.resources.lookup "example_widget").isSome = true
            then "resource" else "data") ++
          " \"" ++ "example_widget" ++ "\" \"example\" \x7b") :: body ++
            [strRepeat "\x7d" (0 + 1)]) ∧
    List.Pairwise (fun a b : String × Nat => py_str_lt a.1 b.1 = true)
      (sort_by_key [("b", 0), ("a", 1)]) ∧
    sort_by_key [("b", (0 : Nat)), ("a", 1)] = sort_by_key [("a", 1), ("b", 0)] :=
  ⟨lexical_order_rendering.1 example_widget_block true 1 false
      ["  display_name = azurerm_display.example.name  # required, type: string"] rfl,
   lexical_order_rendering.2.1 example_widget_schema "example_widget" true false 0
      example_widget_block
      ["resource \"example_widget\" \"example\" \x7b",
       "  display_name = azurerm_display.example.name  # required, type: string",
       "\x7d"] rfl rfl,
   lexical_order_rendering.2.2.1 Nat [("b", 0), ("a", 1)] (by decide),
   lexical_order_rendering.2.2.2 Nat [("b", 0), ("a", 1)] [("a", 1), ("b", 0)]
     (List.Perm.swap ("a", 1) ("b", 0) []) (by decide)⟩
